import Mathlib

set_option autoImplicit false

namespace GmodStatus

/-!
Shallow embedding of `src/query_server.py` (GMod server status monitor, v21).
Timestamps are modelled as `Int` seconds; Python dicts are modelled as
association lists (`List (κ × α)`) with in-place overwrite, matching dict
insertion/update semantics.  Firestore writes and activity-feed entries are
recorded as an explicit `Event` trace.
-/

/-- Lookup in an association list, first binding wins (Python `dict.get`). -/
def lookupKey {κ α : Type} [DecidableEq κ] : List (κ × α) → κ → Option α
  | [], _ => none
  | (k', v) :: rest, k => if k' = k then some v else lookupKey rest k

/-- Insert-or-overwrite in an association list (Python `d[k] = v`). -/
def setKey {κ α : Type} [DecidableEq κ] : List (κ × α) → κ → α → List (κ × α)
  | [], k, v => [(k, v)]
  | (k', v') :: rest, k, v =>
      if k' = k then (k, v) :: rest else (k', v') :: setKey rest k v

/-- Remove a key from an association list (Python `d.pop(k, None)`). -/
def delKey {κ α : Type} [DecidableEq κ] : List (κ × α) → κ → List (κ × α)
  | [], _ => []
  | (k', v') :: rest, k =>
      if k' = k then rest else (k', v') :: delKey rest k

/-! ### Configuration constants (`query_server.py`, lines 59–71) -/

def TIMEOUTS_BEFORE_OFFLINE : Nat := 3
def MAX_SESSION_HISTORY : Nat := 50
def MIN_RECORD_THRESHOLD : Nat := 5
def MAX_SESSION_DURATION : Int := 86400
def LOCK_TIMEOUT : Int := 35 * 60

/-! ### Validation helpers (`validate_player_name`, `validate_player_time`,
`normalize_name`, `sanitize_doc_id`) -/

/-- Embeds `validate_player_name`: rejects empty, over-64-character and
whitespace-only names.  (Python checks `name.isspace()`, which for a nonempty
string means every character is whitespace.) -/
def validate_player_name (name : String) : Bool :=
  !name.isEmpty && name.length ≤ 64 && !(name.toList.all Char.isWhitespace)

/-- Embeds `validate_player_time`: a reported elapsed time is valid when it is
present, nonnegative and at most 7 days. -/
def validate_player_time (t : Int) : Bool :=
  0 ≤ t && t ≤ 86400 * 7

/-- Embeds `normalize_name`: keep alphanumeric characters and lowercase them.
(The Python code first applies NFKD folding and ASCII-encoding; this model is
exact on ASCII input, which is all the concrete inputs used below.) -/
def normalize_name (name : String) : String :=
  String.mk ((name.toList.filter Char.isAlphanum).map Char.toLower)

/-- Characters replaced by `_` in `sanitize_doc_id`. -/
def forbidden_char (c : Char) : Bool :=
  c = '/' || c = '\\' || c = '.' || c = '[' || c = ']' || c = '*' || c = '`' || c = '~'

/-- Embeds `sanitize_doc_id`: replace Firestore-hostile characters with `_`,
strip leading/trailing `_`, reject empty or over-long results. -/
def sanitize_doc_id (s : String) : Option String :=
  if s.isEmpty then none
  else
    let replaced := s.toList.map (fun c => if forbidden_char c then '_' else c)
    let stripped := ((replaced.dropWhile (· = '_')).reverse.dropWhile (· = '_')).reverse
    if stripped.isEmpty || stripped.length > 1500 then none
    else some (String.mk stripped)

/-! ### Snapshot validation (`query_server`, lines 1004–1033) -/

/-- One iteration of the validation loop of `query_server`: a raw reported
entry carries an optional duration (`int(p.duration) if p.duration else 0`
maps a missing or zero duration to 0, which `Option.getD 0` reproduces),
invalid names are dropped, invalid times are replaced by 0. -/
def query_filter_step (acc : List (String × Int)) (p : String × Option Int) :
    List (String × Int) :=
  let time_val : Int := p.2.getD 0
  if !validate_player_name p.1 then acc
  else
    let time_val := if !validate_player_time time_val then 0 else time_val
    setKey acc p.1 (max 0 time_val)

/-- Threads the accumulated `player_data` dict through the loop. -/
def query_filter_aux (acc : List (String × Int)) :
    List (String × Option Int) → List (String × Int)
  | [] => acc
  | p :: rest => query_filter_aux (query_filter_step acc p) rest

/-- Embeds the per-player validation loop of `query_server`: the result is
keyed by name (later entries overwrite earlier ones, as in the Python dict). -/
def query_filter (raw : List (String × Option Int)) : List (String × Int) :=
  query_filter_aux [] raw

/-! ### Execution lease (`acquire_lock`, lines 425–468) -/

/-- Lease record stored at `system/lock`:  the acquisition timestamp
(`locked_at`, ISO string in the source, seconds here). -/
structure LockRec where
  locked_at : Int
  deriving DecidableEq, Repr

/-- Embeds `acquire_lock`: denied (`false`) when a lock record exists whose age
is below `LOCK_TIMEOUT`; otherwise the lock is overwritten with `now` and the
call is granted (`true`). -/
def acquire_lock (lock : Option LockRec) (now : Int) : Bool × Option LockRec :=
  match lock with
  | some l =>
      if now - l.locked_at < LOCK_TIMEOUT then (false, some l)
      else (true, some ⟨now⟩)
  | none => (true, some ⟨now⟩)

/-! ### Data model: player documents, sessions, tracker state -/

/-- Player document (`players` collection / `cache['players']` entries).  Only
the fields the tracker reads and writes are modelled; `avatar_url`, `roles`
and frontend-owned fields never influence the control flow verified here. -/
structure PlayerDoc where
  name : String
  total_time_seconds : Int
  session_count : Nat
  session_history : List (Int × Int × Int)
  current_session_start : Option Int
  deriving DecidableEq, Repr

instance : Inhabited PlayerDoc :=
  ⟨{ name := "", total_time_seconds := 0, session_count := 0,
     session_history := [], current_session_start := none }⟩

/-- In-run open session (`cache['sessions'][name]`): absolute start timestamp
and the player's document id.  Every insertion in the source sets both keys. -/
structure SessionRec where
  started_at : Int
  doc_id : String
  deriving DecidableEq, Repr

/-- Entry of `cache['prev_players']` built by `init_cache` from the persisted
`live/status` document: last reported time, recovered absolute start (always
set, either parsed or derived as `now − time`), and the doc id found by
`find_player` (absent when the name is unknown to the player directory). -/
structure PrevPlayer where
  time : Int
  session_started_at : Int
  doc_id : Option String
  deriving DecidableEq, Repr

/-- Mutable monitor state (`cache` in the source plus the Firestore documents
the loop reads back, under the single-writer assumption of the lease). -/
structure St where
  players : List (String × PlayerDoc)
  byName : List (String × String)
  sessions : List (String × SessionRec)
  prev_times : List (String × Int)
  prev_players : List (String × PrevPlayer)
  last_update_time : Option Int
  hourly_stats : List (Nat × Nat)
  daily_peak : Nat
  record_peak : Nat
  record_store : Nat
  record_valid : Bool
  today_date : String
  is_offline : Bool
  consecutive_timeouts : Nat
  deriving DecidableEq, Repr

/-- Observable effect of one step: Firestore writes plus the two pure-log
effects (activity-feed entries and skip warnings) which are not writes. -/
inductive Event where
  | finalizeEv : String → String → Int → Int → Int → Event
  | playerWrite : String → Event
  | statusWrite : Event
  | statsWrite : Event
  | recordWrite : Event
  | cacheWrite : Event
  | joinEv : String → String → Int → Event
  | skipLog : String → Event
  deriving DecidableEq, Repr

/-- Distinguishes actual Firestore writes from in-memory log effects. -/
def Event.isWrite : Event → Bool
  | .joinEv _ _ _ => false
  | .skipLog _ => false
  | _ => true

/-- Number of Firestore writes in a trace (the source's `writes` counters). -/
def writeCount (evs : List Event) : Nat :=
  (evs.filter Event.isWrite).length

/-- Key used by `find_player`/`update_player_cache`: `name.lower().strip()`
(lowercase, then strip leading/trailing whitespace), realized on the
character list. -/
def lowerKey (name : String) : String :=
  String.mk
    ((((name.toList.map Char.toLower).dropWhile Char.isWhitespace).reverse.dropWhile
      Char.isWhitespace).reverse)

/-- Embeds `find_player`: look the name up in the name index under its
lowercased key, then under its normalized key, and return the doc id together
with the cached document when the id is actually present in `players`. -/
def find_player (st : St) (name : String) : Option (String × PlayerDoc) :=
  let doc_id := match lookupKey st.byName (lowerKey name) with
    | some d => some d
    | none => lookupKey st.byName (normalize_name name)
  match doc_id with
  | some d =>
      match lookupKey st.players d with
      | some data => some (d, data)
      | none => none
  | none => none

/-- Embeds `update_player_cache`: store the document and (when it carries a
name) index it under both the lowercased and the normalized key. -/
def update_player_cache (st : St) (doc_id : String) (data : PlayerDoc) : St :=
  let players := setKey st.players doc_id data
  let byName :=
    if data.name = "" then st.byName
    else setKey (setKey st.byName (lowerKey data.name) doc_id)
      (normalize_name data.name) doc_id
  { st with players := players, byName := byName }

/-! ### Duration accumulator (`finalize_session`, lines 667–723) -/

/-- Embeds `finalize_session`: duration is `ended_at − started_at` computed
from absolute timestamps; a negative duration is logged and skipped (state
untouched, no write); a duration above 24h is capped; the capped duration is
added to the player's total, the open-session marker is cleared and a history
entry is prepended (ring buffer of 50).  The emitted `finalizeEv` is the one
Firestore write of the call. -/
def finalize_session (st : St) (name doc_id : String) (started_at ended_at : Int) :
    St × List Event :=
  if doc_id = "" then (st, [])
  else
    let duration := ended_at - started_at
    if duration < 0 then (st, [])
    else
      let duration :=
        if duration > MAX_SESSION_DURATION then MAX_SESSION_DURATION else duration
      let data := (lookupKey st.players doc_id).getD default
      let new_total := data.total_time_seconds + duration
      let history :=
        ((started_at, ended_at, duration) :: data.session_history).take MAX_SESSION_HISTORY
      let data' := { data with
        total_time_seconds := new_total,
        current_session_start := none,
        session_history := history }
      (update_player_cache st doc_id data',
        [Event.finalizeEv name doc_id started_at ended_at duration])

/-- Cumulative total of a document id in the state (0 when absent, matching
`data.get('total_time_seconds', 0)`). -/
def playerTotal (st : St) (doc_id : String) : Int :=
  ((lookupKey st.players doc_id).getD default).total_time_seconds

/-- Session count of a document id in the state (0 when absent). -/
def playerSessionCount (st : St) (doc_id : String) : Nat :=
  ((lookupKey st.players doc_id).getD default).session_count

/-! ### Tick machinery (`run_sync` main loop, lines 1195–1579) -/

/-- Threads the state through a per-name step, concatenating event traces;
models the `for name in ...` loops of `run_sync`. -/
def runFold {α : Type} (f : St → α → St × List Event) : St → List α → St × List Event
  | st, [] => (st, [])
  | st, x :: xs =>
      let r := f st x
      let r' := runFold f r.1 xs
      (r'.1, r.2 ++ r'.2)

/-- PHASE 1 (`run_sync` lines 1275–1296), one stayed name: when the reported
elapsed drops by more than 60s below the last reported value, finalize the old
session (when one with a doc id is present) and open a fresh session with
`start = now − current_time` (when the name resolves locally). -/
def reset_step (now : Int) (current : List (String × Int)) (st : St) (name : String) :
    St × List Event :=
  let current_time := (lookupKey current name).getD 0
  let prev_time := (lookupKey st.prev_times name).getD 0
  if current_time < prev_time - 60 then
    let r := match lookupKey st.sessions name with
      | some s =>
          if s.doc_id ≠ "" then finalize_session st name s.doc_id s.started_at now
          else (st, [])
      | none => (st, [])
    let new_started := now - current_time
    match find_player r.1 name with
    | some (doc_id, _) =>
        ({ r.1 with sessions := setKey r.1.sessions name ⟨new_started, doc_id⟩ },
          r.2 ++ [Event.joinEv name doc_id new_started])
    | none => r
  else (st, [])

/-- PHASE 3 (`run_sync` lines 1311–1337), one departed name: finalize the open
session when it carries a doc id; otherwise fall back to a bare
`current_session_start := None` write when the name still resolves; in every
case drop the name from `sessions` and `prev_times`. -/
def departure_step (now : Int) (st : St) (name : String) : St × List Event :=
  let r := match lookupKey st.sessions name with
    | some s =>
        if s.doc_id ≠ "" then finalize_session st name s.doc_id s.started_at now
        else
          match find_player st name with
          | some (doc_id, data) =>
              (update_player_cache st doc_id { data with current_session_start := none },
                [Event.playerWrite doc_id])
          | none => (st, [])
    | none => (st, [])
  ({ r.1 with
      sessions := delKey r.1.sessions name,
      prev_times := delKey r.1.prev_times name }, r.2)

/-- PHASE 4 (`run_sync` lines 1342–1477), one joined name.  `resolve` stands
for the per-run Steam lookup cache (`steam_cache` filled in PHASE 2): it
returns the resolved steam id of a name, or `none` on resolution failure.
The three branches mirror the source: known local name, resolved steam id
(existing or brand-new document), and the provisional `auto_` fallback.
In the known-name branch the Firestore `update` call touches only
`session_count` and `current_session_start` on the document stored under the
sanitized id, so the merge base is the stored document; this coincides with
the source's cache merge whenever the indexed id is sanitize-stable, which
every id written by the program is. -/
def arrival_step (resolve : String → Option String) (now : Int)
    (current : List (String × Int)) (st : St) (name : String) : St × List Event :=
  let session_time := (lookupKey current name).getD 0
  let started_at := now - session_time
  match find_player st name with
  | some (doc_id₀, data) =>
      match sanitize_doc_id doc_id₀ with
      | none => (st, [])
      | some doc_id =>
          let base := (lookupKey st.players doc_id).getD default
          let data' := { base with
            session_count := data.session_count + 1,
            current_session_start := some started_at }
          let st := update_player_cache st doc_id data'
          let st := { st with sessions := setKey st.sessions name ⟨started_at, doc_id⟩ }
          (st, [Event.playerWrite doc_id, Event.joinEv name doc_id started_at])
  | none =>
      match resolve name with
      | some steam2 =>
          match sanitize_doc_id steam2 with
          | none => (st, [])
          | some doc_id =>
              let r : St × List Event := match lookupKey st.players doc_id with
                | some existing =>
                    let data' := { existing with
                      name := name,
                      session_count := existing.session_count + 1,
                      current_session_start := some started_at }
                    (update_player_cache st doc_id data',
                      [Event.playerWrite doc_id, Event.joinEv name doc_id started_at])
                | none =>
                    let new_player : PlayerDoc := {
                      name := name, total_time_seconds := 0, session_count := 1,
                      session_history := [], current_session_start := some started_at }
                    (update_player_cache st doc_id new_player,
                      [Event.playerWrite doc_id, Event.joinEv name doc_id started_at])
              ({ r.1 with sessions := setKey r.1.sessions name ⟨started_at, doc_id⟩ }, r.2)
      | none =>
          let key := if normalize_name name = "" then "unknown" else normalize_name name
          let doc_id := (sanitize_doc_id ("auto_" ++ key)).getD "auto_fallback"
          let r : St × List Event := match lookupKey st.players doc_id with
            | some existing =>
                let data' := { existing with
                  name := name,
                  session_count := existing.session_count + 1,
                  current_session_start := some started_at }
                (update_player_cache st doc_id data', [Event.playerWrite doc_id])
            | none =>
                let new_player : PlayerDoc := {
                  name := name, total_time_seconds := 0, session_count := 1,
                  session_history := [], current_session_start := some started_at }
                (update_player_cache st doc_id new_player, [Event.playerWrite doc_id])
          ({ r.1 with sessions := setKey r.1.sessions name ⟨started_at, doc_id⟩ },
            r.2 ++ [Event.joinEv name doc_id started_at])

/-- PHASE 5 (`run_sync` lines 1482–1490), one stayed name: after a restart a
stayed name may lack a session; synthesize one with `start = now − elapsed`
when the name resolves locally.  No write is performed. -/
def phase5_step (now : Int) (current : List (String × Int)) (st : St) (name : String) :
    St × List Event :=
  match lookupKey st.sessions name with
  | some _ => (st, [])
  | none =>
      let session_time := (lookupKey current name).getD 0
      let started_at := now - session_time
      match find_player st name with
      | some (doc_id, _) =>
          ({ st with sessions := setKey st.sessions name ⟨started_at, doc_id⟩ }, [])
      | none => (st, [])

/-- PHASE 7 (`run_sync` lines 1536–1551): the hourly/daily stats document is
written when the hour has no cached value (sentinel −1) or the current count
exceeds it. -/
def stats_step (hour : Nat) (count : Nat) (st : St) : St × List Event :=
  let cached : Int := match lookupKey st.hourly_stats hour with
    | some v => (v : Int)
    | none => -1
  if cached = -1 ∨ (count : Int) > cached then
    let newval : Nat := max (if 0 ≤ cached then cached.toNat else 0) count
    ({ st with
        hourly_stats := setKey st.hourly_stats hour newval,
        daily_peak := max st.daily_peak count }, [Event.statsWrite])
  else (st, [])

/-- All-time record update (`run_sync` lines 1554–1570): guarded by the cached
record, re-reads the stored record document, writes only on a true new max. -/
def record_step (count : Nat) (st : St) : St × List Event :=
  if st.record_valid ∧ st.record_peak < count ∧ MIN_RECORD_THRESHOLD ≤ count then
    if st.record_store < count then
      ({ st with record_peak := count, record_store := count }, [Event.recordWrite])
    else ({ st with record_peak := st.record_store }, [])
  else (st, [])

/-- One successful tick of the main loop (`run_sync` lines 1195–1579, case
`server_data['ok']`), with the frontend-reset document absent.  `snapshot` is
the validated output of `query_server`; `hour`/`today` are derived from `now`
in the source and passed separately here. -/
def successTick (resolve : String → Option String) (st : St)
    (snapshot : List (String × Int)) (now : Int) (hour : Nat) (today : String) :
    St × List Event :=
  let st := if today ≠ st.today_date then
      { st with today_date := today, hourly_stats := [], daily_peak := 0 }
    else st
  let was_offline := st.is_offline
  let st := { st with consecutive_timeouts := 0, is_offline := false }
  let current_names := snapshot.map Prod.fst
  let previous_names := st.sessions.map Prod.fst
  let joined := current_names.filter (fun n => decide (n ∉ previous_names))
  let left := previous_names.filter (fun n => decide (n ∉ current_names))
  let stayed := current_names.filter (fun n => decide (n ∈ previous_names))
  let players_changed := !joined.isEmpty || !left.isEmpty || was_offline
  let r1 := runFold (reset_step now snapshot) st stayed
  let r3 := runFold (departure_step now) r1.1 left
  let r4 := runFold (arrival_step resolve now snapshot) r3.1 joined
  let r5 := runFold (phase5_step now snapshot) r4.1 stayed
  let e6 : List Event := if players_changed then [Event.statusWrite] else []
  let st := { r5.1 with prev_times := snapshot }
  let r7 := stats_step hour snapshot.length st
  let r8 := record_step snapshot.length r7.1
  let e9 : List Event := if players_changed then [Event.cacheWrite] else []
  (r8.1, r1.2 ++ r3.2 ++ r4.2 ++ r5.2 ++ e6 ++ r7.2 ++ r8.2 ++ e9)

/-- One open session of the offline transition (`run_sync` lines 1230–1234):
finalize it at `now` when it carries a doc id. -/
def offline_step (now : Int) (st : St) (p : String × SessionRec) : St × List Event :=
  if p.2.doc_id ≠ "" then finalize_session st p.1 p.2.doc_id p.2.started_at now
  else (st, [])

/-- One failed tick (`run_sync` lines 1216–1251): increment the consecutive
timeout counter; when already offline do nothing further; when the threshold
is reached transition to offline, finalizing every open session at `now`,
clearing the open-session and reported-time state, and writing the offline
status document once. -/
def failTick (st : St) (now : Int) : St × List Event :=
  let st := { st with consecutive_timeouts := st.consecutive_timeouts + 1 }
  if st.is_offline then (st, [])
  else if TIMEOUTS_BEFORE_OFFLINE ≤ st.consecutive_timeouts then
    let st := { st with is_offline := true }
    let r := runFold (offline_step now) st st.sessions
    ({ r.1 with sessions := [], prev_times := [] }, r.2 ++ [Event.statusWrite])
  else (st, [])

/-! ### Missed-departure recovery (`detect_missed_departures`, lines 960–999) -/

/-- One missed entry of the recovery pass (`detect_missed_departures` body):
finalize at the estimated departure when a doc id was recovered, otherwise
log and skip; drop the name from the in-run maps either way. -/
def missed_step (estimated : Int) (st : St) (p : String × PrevPlayer) :
    St × List Event :=
  let r := match p.2.doc_id with
    | some d => finalize_session st p.1 d p.2.session_started_at estimated
    | none => (st, [Event.skipLog p.1])
  ({ r.1 with
      sessions := delKey r.1.sessions p.1,
      prev_times := delKey r.1.prev_times p.1 }, r.2)

/-- Embeds `detect_missed_departures`: every name of the persisted snapshot
absent from the first fresh poll is finalized at the last persisted write's
timestamp plus a 30s grace period (fallback `now − 25min` when no timestamp
was recovered); entries lacking a doc id are logged and skipped; the name is
removed from the in-run session and reported-time maps either way. -/
def detect_missed_departures (st : St) (current : List (String × Int)) (now : Int) :
    St × List Event :=
  let current_names := current.map Prod.fst
  let missed := st.prev_players.filter (fun p => decide (p.1 ∉ current_names))
  let estimated := match st.last_update_time with
    | some t => t + 30
    | none => now - 25 * 60
  runFold (missed_step estimated) st missed

/-- Empty monitor state, used as the base of concrete scenarios. -/
def St0 : St :=
  { players := [], byName := [], sessions := [], prev_times := [],
    prev_players := [], last_update_time := none, hourly_stats := [],
    daily_peak := 0, record_peak := 0, record_store := 0,
    record_valid := false, today_date := "", is_offline := false,
    consecutive_timeouts := 0 }

/-- Entries produced by the validation loop: valid name, elapsed in
`[0, 604800]`. -/
def goodEntry (p : String × Int) : Prop :=
  validate_player_name p.1 = true ∧ 0 ≤ p.2 ∧ p.2 ≤ 604800

/-- Pointwise comparison of cumulative totals between two states. -/
def TotalsLE (st st' : St) : Prop :=
  ∀ id, playerTotal st id ≤ playerTotal st' id

/-- Finalize event the offline transition emits for one open session (none
when the session lacks a doc id or its duration would be negative). -/
def offlineFinalizeEv (now : Int) (p : String × SessionRec) : Option Event :=
  if p.2.doc_id ≠ "" ∧ 0 ≤ now - p.2.started_at then
    some (Event.finalizeEv p.1 p.2.doc_id p.2.started_at now
      (min (now - p.2.started_at) MAX_SESSION_DURATION))
  else none

/-- Events `detect_missed_departures` emits for one missed snapshot entry. -/
def missedEv (estimated : Int) (p : String × PrevPlayer) : List Event :=
  match p.2.doc_id with
  | some d =>
      if d ≠ "" ∧ 0 ≤ estimated - p.2.session_started_at then
        [Event.finalizeEv p.1 d p.2.session_started_at estimated
          (min (estimated - p.2.session_started_at) MAX_SESSION_DURATION)]
      else []
  | none => [Event.skipLog p.1]

/-- Recognizes a finalize event for a given display name. -/
def finalizeFor (n : String) : Event → Bool
  | .finalizeEv m _ _ _ _ => decide (m = n)
  | _ => false

/-- Iterated hourly-stats update over a sequence of observed counts (the
PHASE 7 code run over successive ticks within one hour). -/
def statsRun (hour : Nat) (counts : List Nat) (st : St) : St × List Event :=
  runFold (fun st c => stats_step hour c st) st counts

/-- Concrete player document used in the reset-detection scenarios. -/
def oldDoc (css : Option Int) : PlayerDoc :=
  { name := "Old", total_time_seconds := 500, session_count := 2,
    session_history := [], current_session_start := css }

/-- Concrete state used in the reset-detection scenarios: one player `Old`
(doc `STEAM1`) with an open session starting at `start` and a last reported
elapsed of 940s. -/
def resetSt (start : Int) : St :=
  { St0 with
      players := [("STEAM1", oldDoc (some start))],
      byName := [("old", "STEAM1")],
      sessions := [("Old", ⟨start, "STEAM1"⟩)],
      prev_times := [("Old", 940)] }

/-- Concrete identity document for the rename scenario: display name `Old`,
stable id `STEAM1`. -/
def renameDoc (total : Int) (count : Nat) (hist : List (Int × Int × Int))
    (css : Option Int) : PlayerDoc :=
  { name := "Old", total_time_seconds := total, session_count := count,
    session_history := hist, current_session_start := css }

/-- State for the rename scenario: one player `Old` with an open session. -/
def renameSt (s : Int) (total : Int) (count : Nat) (hist : List (Int × Int × Int))
    (css : Option Int) : St :=
  { St0 with
      players := [("STEAM1", renameDoc total count hist css)],
      byName := [("old", "STEAM1")],
      sessions := [("Old", ⟨s, "STEAM1"⟩)],
      prev_times := [("Old", 900)] }

/-- Steam resolution oracle of the rename scenario: the new display name
resolves to the same stable id as the old one. -/
def renameResolve : String → Option String :=
  fun n => if n = "New" then some "STEAM1" else none

/-! ### Generic helper lemmas -/

@[simp] theorem lookupKey_nil {κ α : Type} [DecidableEq κ] (k : κ) :
    lookupKey ([] : List (κ × α)) k = none := rfl

@[simp] theorem lookupKey_cons {κ α : Type} [DecidableEq κ]
    (k' : κ) (v : α) (rest : List (κ × α)) (k : κ) :
    lookupKey ((k', v) :: rest) k = if k' = k then some v else lookupKey rest k := rfl

@[simp] theorem setKey_nil {κ α : Type} [DecidableEq κ] (k : κ) (v : α) :
    setKey ([] : List (κ × α)) k v = [(k, v)] := rfl

@[simp] theorem setKey_cons {κ α : Type} [DecidableEq κ]
    (k' : κ) (v' : α) (rest : List (κ × α)) (k : κ) (v : α) :
    setKey ((k', v') :: rest) k v =
      if k' = k then (k, v) :: rest else (k', v') :: setKey rest k v := rfl

theorem lookupKey_setKey_self {κ α : Type} [DecidableEq κ]
    (l : List (κ × α)) (k : κ) (v : α) :
    lookupKey (setKey l k v) k = some v := by
  induction l with
  | nil => simp
  | cons hd tl ih =>
      obtain ⟨k', v'⟩ := hd
      by_cases h : k' = k <;> simp [h, ih]

theorem lookupKey_setKey_ne {κ α : Type} [DecidableEq κ]
    (l : List (κ × α)) (k j : κ) (v : α) (hne : k ≠ j) :
    lookupKey (setKey l k v) j = lookupKey l j := by
  induction l with
  | nil => simp [hne]
  | cons hd tl ih =>
      obtain ⟨k', v'⟩ := hd
      by_cases h : k' = k
      · subst h; simp [hne]
      · simp only [setKey_cons, if_neg h, lookupKey_cons]
        by_cases h2 : k' = j <;> simp [h2, ih]


theorem cap_eq_min (d : Int) :
    (if d > MAX_SESSION_DURATION then MAX_SESSION_DURATION else d) =
      min d MAX_SESSION_DURATION := by
  rw [min_def]
  split <;> split <;> omega

theorem lookupKey_isSome_of_mem_keys {κ α : Type} [DecidableEq κ]
    (l : List (κ × α)) (k : κ) (h : k ∈ l.map Prod.fst) :
    (lookupKey l k).isSome := by
  induction l with
  | nil => simp at h
  | cons hd tl ih =>
      obtain ⟨k', v'⟩ := hd
      by_cases hk : k' = k
      · simp [hk]
      · simp only [List.map_cons, List.mem_cons] at h
        rcases h with h | h
        · exact absurd h.symm hk
        · simp [hk, ih h]

theorem runFold_nil {α : Type} (f : St → α → St × List Event) (st : St) :
    runFold f st [] = (st, []) := rfl

theorem runFold_cons {α : Type} (f : St → α → St × List Event) (st : St)
    (x : α) (xs : List α) :
    runFold f st (x :: xs) =
      ((runFold f (f st x).1 xs).1, (f st x).2 ++ (runFold f (f st x).1 xs).2) := rfl

/-- A fold whose every step leaves the state untouched and emits nothing is
the identity. -/
theorem runFold_id {α : Type} (f : St → α → St × List Event) (st : St)
    (xs : List α) (h : ∀ x ∈ xs, f st x = (st, [])) :
    runFold f st xs = (st, []) := by
  induction xs with
  | nil => rfl
  | cons x xs ih =>
      rw [runFold_cons, h x (List.mem_cons_self x xs)]
      simp [ih (fun y hy => h y (List.mem_cons_of_mem x hy))]

/-! ### Claim C8 — execution lease -/

/-- C8: `acquire(owner)` is denied if and only if a lease record exists whose
age is below the 35-minute timeout; when the record is absent or at least as
old as the timeout the caller overwrites it with `now` and is granted; in
particular a second acquire 5 minutes after one at time `T` is denied and an
acquire 40 minutes after `T` is granted. -/
theorem acquire_lock_spec :
    (∀ (lock : Option LockRec) (now : Int),
      ((acquire_lock lock now).1 = false ↔
        ∃ l, lock = some l ∧ now - l.locked_at < LOCK_TIMEOUT) ∧
      ((acquire_lock lock now).1 = true → (acquire_lock lock now).2 = some ⟨now⟩)) ∧
    (∀ T : Int,
      (acquire_lock (acquire_lock none T).2 (T + 5 * 60)).1 = false ∧
      (acquire_lock (acquire_lock none T).2 (T + 40 * 60)).1 = true) := by
  constructor
  · intro lock now
    constructor
    · constructor
      · intro h
        match lock with
        | none => simp [acquire_lock] at h
        | some l =>
            refine ⟨l, rfl, ?_⟩
            by_contra hc
            simp [acquire_lock, hc] at h
      · rintro ⟨l, rfl, hage⟩
        simp [acquire_lock, hage]
    · intro h
      match lock with
      | none => simp [acquire_lock]
      | some l =>
          by_cases hage : now - l.locked_at < LOCK_TIMEOUT
          · simp [acquire_lock, hage] at h
          · simp [acquire_lock, hage]
  · intro T
    constructor
    · norm_num [acquire_lock, LOCK_TIMEOUT]
    · norm_num [acquire_lock, LOCK_TIMEOUT]

/-! ### Claim C3 — duration computation in `finalize_session` -/

/-- C3: a `finalize_session` call with a real doc id computes
`duration = ended_at − started_at`; a negative duration is a logged,
skipped bookkeeping fault that leaves the state (hence the identity's total)
untouched and performs no write; otherwise the duration is capped at
24h = 86400s and the identity's total becomes the old total plus the capped
duration (one write). -/
theorem finalize_session_duration_spec (st : St) (name doc_id : String)
    (started_at ended_at : Int) (hdoc : doc_id ≠ "") :
    (ended_at - started_at < 0 →
      finalize_session st name doc_id started_at ended_at = (st, [])) ∧
    (0 ≤ ended_at - started_at →
      playerTotal (finalize_session st name doc_id started_at ended_at).1 doc_id =
        playerTotal st doc_id + min (ended_at - started_at) MAX_SESSION_DURATION ∧
      writeCount (finalize_session st name doc_id started_at ended_at).2 = 1) := by
  constructor
  · intro h
    simp [finalize_session, hdoc, h]
  · intro h
    have hneg : ¬ (ended_at - started_at < 0) := not_lt.mpr h
    constructor
    · simp only [finalize_session, if_neg hdoc, if_neg hneg, cap_eq_min,
        playerTotal, update_player_cache]
      rw [lookupKey_setKey_self]
      rfl
    · simp [finalize_session, hdoc, hneg, writeCount, Event.isWrite]

/-- Closed instance of `finalize_session_duration_spec` with the hypotheses
discharged on concrete input: a 2-hour session adds 7200s, and a reversed
timestamp pair leaves the state untouched. -/
theorem finalize_session_duration_spec_witness :
    finalize_session St0 "Alice" "STEAM1" 9000 1000 = (St0, []) ∧
    playerTotal (finalize_session St0 "Alice" "STEAM1" 1000 8200).1 "STEAM1" =
      0 + min 7200 MAX_SESSION_DURATION := by
  refine ⟨?_, ?_⟩
  · exact (finalize_session_duration_spec St0 "Alice" "STEAM1" 9000 1000
      (by decide)).1 (by decide)
  · have h := (finalize_session_duration_spec St0 "Alice" "STEAM1" 1000 8200
      (by decide)).2 (by decide)
    have h0 : playerTotal St0 "STEAM1" = 0 := by decide
    rw [h.1, h0]
    norm_num

/-! ### Claim C10 — snapshot validation -/

theorem mem_setKey {κ α : Type} [DecidableEq κ]
    (l : List (κ × α)) (k : κ) (v : α) (x : κ × α) (hx : x ∈ setKey l k v) :
    x ∈ l ∨ x = (k, v) := by
  induction l with
  | nil => simpa using hx
  | cons hd tl ih =>
      obtain ⟨k', v'⟩ := hd
      by_cases h : k' = k
      · simp only [setKey_cons, if_pos h, List.mem_cons] at hx
        rcases hx with hx | hx
        · right; exact hx
        · left; exact List.mem_cons_of_mem _ hx
      · simp only [setKey_cons, if_neg h, List.mem_cons] at hx
        rcases hx with hx | hx
        · left; simp [hx]
        · rcases ih hx with h2 | h2
          · left; exact List.mem_cons_of_mem _ h2
          · right; exact h2

theorem query_filter_step_good (acc : List (String × Int)) (p : String × Option Int)
    (hacc : ∀ x ∈ acc, goodEntry x) :
    ∀ x ∈ query_filter_step acc p, goodEntry x := by
  intro x hx
  unfold query_filter_step at hx
  by_cases hname : validate_player_name p.1
  · simp only [hname, Bool.not_true, Bool.false_eq_true, if_false] at hx
    rcases mem_setKey _ _ _ _ hx with h | h
    · exact hacc x h
    · subst h
      refine ⟨hname, le_max_left _ _, ?_⟩
      by_cases htime : validate_player_time (p.2.getD 0)
      · have := htime
        unfold validate_player_time at this
        simp only [Bool.and_eq_true, decide_eq_true_eq] at this
        simp only [htime, Bool.not_true, Bool.false_eq_true, if_false]
        omega
      · simp only [htime, Bool.not_false, if_true]
        norm_num
  · simp only [hname] at hx
    exact hacc x hx

theorem query_filter_aux_good (raw : List (String × Option Int)) :
    ∀ acc, (∀ x ∈ acc, goodEntry x) → ∀ x ∈ query_filter_aux acc raw, goodEntry x := by
  induction raw with
  | nil => intro acc hacc x hx; exact hacc x hx
  | cons p rest ih =>
      intro acc hacc x hx
      exact ih _ (query_filter_step_good acc p hacc) x hx

/-- A step never touches the binding of a name with a different validation
status. -/
theorem query_filter_step_lookup_ne (acc : List (String × Int))
    (p : String × Option Int) (n : String) (hne : p.1 ≠ n) :
    lookupKey (query_filter_step acc p) n = lookupKey acc n := by
  unfold query_filter_step
  by_cases hname : validate_player_name p.1
  · simp only [hname, Bool.not_true, Bool.false_eq_true, if_false]
    exact lookupKey_setKey_ne _ _ _ _ hne
  · simp [hname]

theorem query_filter_aux_lookup_invalid (raw : List (String × Option Int))
    (n : String) (hn : validate_player_name n = false) :
    ∀ acc, lookupKey (query_filter_aux acc raw) n = lookupKey acc n := by
  induction raw with
  | nil => intro acc; rfl
  | cons p rest ih =>
      intro acc
      rw [query_filter_aux, ih]
      by_cases hname : validate_player_name p.1
      · exact query_filter_step_lookup_ne acc p n (by intro h; rw [h, hn] at hname; exact absurd hname (by simp))
      · unfold query_filter_step
        simp [hname]

/-- Once a name is bound and no later raw entry reuses it, the binding
survives to the end of the loop. -/
theorem query_filter_aux_lookup_frozen (raw : List (String × Option Int))
    (n : String) (v : Int) (hraw : ∀ p ∈ raw, p.1 ≠ n) :
    ∀ acc, lookupKey acc n = some v →
      lookupKey (query_filter_aux acc raw) n = some v := by
  induction raw with
  | nil => intro acc hacc; exact hacc
  | cons p rest ih =>
      intro acc hacc
      rw [query_filter_aux]
      refine ih (fun q hq => hraw q (List.mem_cons_of_mem _ hq)) _ ?_
      rw [query_filter_step_lookup_ne acc p n (hraw p (List.mem_cons_self _ _))]
      exact hacc

theorem query_filter_aux_zero (raw : List (String × Option Int))
    (hnd : (raw.map Prod.fst).Nodup) (q : String × Option Int) (hq : q ∈ raw)
    (hname : validate_player_name q.1 = true)
    (htime : validate_player_time (q.2.getD 0) = false) :
    ∀ acc, lookupKey (query_filter_aux acc raw) q.1 = some 0 := by
  induction raw with
  | nil => simp at hq
  | cons p rest ih =>
      intro acc
      rcases List.mem_cons.mp hq with hq1 | hq2
      · subst hq1
        rw [query_filter_aux]
        have hstep : lookupKey (query_filter_step acc q) q.1 = some 0 := by
          unfold query_filter_step
          simp only [hname, htime, Bool.not_true, Bool.false_eq_true, if_false,
            Bool.not_false, if_true]
          rw [lookupKey_setKey_self]
          norm_num
        have hrest : ∀ r ∈ rest, r.1 ≠ q.1 := by
          intro r hr
          simp only [List.map_cons, List.nodup_cons] at hnd
          intro hcontra
          exact hnd.1 (hcontra ▸ List.mem_map_of_mem Prod.fst hr)
        exact query_filter_aux_lookup_frozen rest q.1 0 hrest _ hstep
      · rw [query_filter_aux]
        simp only [List.map_cons, List.nodup_cons] at hnd
        exact ih hnd.2 hq2 _

/-- C10: every snapshot returned by a successful `query_server` probe excludes
names that are empty, whitespace-only or longer than 64 characters, and maps
each kept name to a nonnegative elapsed value of at most 7 days: invalid
names never appear in the result, and (when the raw report holds each name
once) a kept name whose reported elapsed is missing, negative or above
604800s is bound to 0. -/
theorem query_filter_valid_spec (raw : List (String × Option Int)) :
    (∀ p ∈ query_filter raw, validate_player_name p.1 = true ∧ 0 ≤ p.2 ∧ p.2 ≤ 604800) ∧
    (∀ q ∈ raw, validate_player_name q.1 = false →
      lookupKey (query_filter raw) q.1 = none) ∧
    ((raw.map Prod.fst).Nodup →
      ∀ q ∈ raw, validate_player_name q.1 = true →
        validate_player_time (q.2.getD 0) = false →
        lookupKey (query_filter raw) q.1 = some 0) := by
  refine ⟨?_, ?_, ?_⟩
  · intro p hp
    exact query_filter_aux_good raw [] (by simp) p hp
  · intro q hq hinv
    rw [query_filter, query_filter_aux_lookup_invalid raw q.1 hinv []]
    rfl
  · intro hnd q hq hname htime
    exact query_filter_aux_zero raw hnd q hq hname htime []

/-- Closed instance of `query_filter_valid_spec`: on the concrete raw report
`[("", 5s), ("Bob", −3s), ("Al", missing), ("Cd", 700000s), ("Ok", 120s)]`
the filtered snapshot keeps `Ok ↦ 120`, drops the empty name, and zeroes the
negative, missing and over-7-day times. -/
theorem query_filter_valid_spec_witness :
    lookupKey (query_filter
        [("", some 5), ("Bob", some (-3)), ("Al", none), ("Cd", some 700000),
         ("Ok", some 120)]) "" = none ∧
    lookupKey (query_filter
        [("", some 5), ("Bob", some (-3)), ("Al", none), ("Cd", some 700000),
         ("Ok", some 120)]) "Bob" = some 0 := by
  constructor
  · exact (query_filter_valid_spec _).2.1 ("", some 5) (by decide) (by decide)
  · exact (query_filter_valid_spec _).2.2 (by decide) ("Bob", some (-3))
      (by decide) (by decide) (by decide)

/-! ### Preservation lemmas for the tick phases -/

theorem totalsLE_refl (st : St) : TotalsLE st st := fun _ => le_refl _

theorem playerTotal_update_player_cache_le (st : St) (doc_id : String)
    (data' : PlayerDoc) (h : playerTotal st doc_id ≤ data'.total_time_seconds)
    (id : String) :
    playerTotal st id ≤ playerTotal (update_player_cache st doc_id data') id := by
  by_cases hid : doc_id = id
  · subst hid
    unfold playerTotal update_player_cache
    simp only []
    rw [lookupKey_setKey_self]
    exact h
  · unfold playerTotal update_player_cache
    simp only []
    rw [lookupKey_setKey_ne _ _ _ _ hid]

theorem finalize_session_totals (st : St) (n d : String) (s e : Int) (id : String) :
    playerTotal st id ≤ playerTotal (finalize_session st n d s e).1 id := by
  by_cases hd : d = ""
  · simp [finalize_session, hd]
  · by_cases hneg : e - s < 0
    · simp [finalize_session, hd, hneg]
    · simp only [finalize_session, if_neg hd, if_neg hneg]
      refine playerTotal_update_player_cache_le _ _ _ ?_ id
      have hcap : (0:Int) ≤
          if e - s > MAX_SESSION_DURATION then MAX_SESSION_DURATION else e - s := by
        unfold MAX_SESSION_DURATION
        split <;> omega
      exact le_add_of_nonneg_right hcap

theorem finalize_session_flags (st : St) (n d : String) (s e : Int) :
    (finalize_session st n d s e).1.is_offline = st.is_offline ∧
    (finalize_session st n d s e).1.consecutive_timeouts = st.consecutive_timeouts := by
  unfold finalize_session
  simp only []
  split_ifs <;> exact ⟨rfl, rfl⟩

theorem runFold_playerTotal {α : Type} (f : St → α → St × List Event)
    (hf : ∀ st x id, playerTotal st id ≤ playerTotal (f st x).1 id)
    (st : St) (xs : List α) (id : String) :
    playerTotal st id ≤ playerTotal (runFold f st xs).1 id := by
  induction xs generalizing st with
  | nil => exact le_refl _
  | cons x xs ih =>
      rw [runFold_cons]
      exact le_trans (hf st x id) (ih (f st x).1)

theorem runFold_flags {α : Type} (f : St → α → St × List Event)
    (hf : ∀ st x, (f st x).1.is_offline = st.is_offline ∧
      (f st x).1.consecutive_timeouts = st.consecutive_timeouts)
    (st : St) (xs : List α) :
    (runFold f st xs).1.is_offline = st.is_offline ∧
    (runFold f st xs).1.consecutive_timeouts = st.consecutive_timeouts := by
  induction xs generalizing st with
  | nil => exact ⟨rfl, rfl⟩
  | cons x xs ih =>
      rw [runFold_cons]
      exact ⟨((ih (f st x).1).1).trans (hf st x).1,
        ((ih (f st x).1).2).trans (hf st x).2⟩

theorem reset_step_flags (now : Int) (cur : List (String × Int)) (st : St)
    (name : String) :
    (reset_step now cur st name).1.is_offline = st.is_offline ∧
    (reset_step now cur st name).1.consecutive_timeouts = st.consecutive_timeouts := by
  unfold reset_step
  simp only []
  split_ifs with hr
  · cases hs : lookupKey st.sessions name with
    | none =>
        simp only [hs]
        cases hf : find_player st name with
        | none => constructor <;> trivial
        | some p => obtain ⟨d, data⟩ := p; simp only [hf]; constructor <;> trivial
    | some s =>
        simp only [hs]
        split_ifs with hd
        · cases hf : find_player (finalize_session st name s.doc_id s.started_at now).1
              name with
          | none => simp only [hf]; exact finalize_session_flags _ _ _ _ _
          | some p =>
              obtain ⟨d, data⟩ := p
              simp only [hf]
              exact finalize_session_flags _ _ _ _ _
        · cases hf : find_player st name with
          | none => simp only [hf]; constructor <;> trivial
          | some p => obtain ⟨d, data⟩ := p; simp only [hf]; constructor <;> trivial
  · constructor <;> trivial

theorem departure_step_flags (now : Int) (st : St) (name : String) :
    (departure_step now st name).1.is_offline = st.is_offline ∧
    (departure_step now st name).1.consecutive_timeouts = st.consecutive_timeouts := by
  unfold departure_step
  simp only []
  cases hs : lookupKey st.sessions name with
  | none => simp only [hs]; constructor <;> trivial
  | some s =>
      simp only [hs]
      split_ifs with hd
      · exact finalize_session_flags _ _ _ _ _
      · cases hf : find_player st name with
        | none => simp only [hf]; constructor <;> trivial
        | some p => obtain ⟨d, data⟩ := p; simp only [hf]; constructor <;> trivial

theorem arrival_step_flags (resolve : String → Option String) (now : Int)
    (cur : List (String × Int)) (st : St) (name : String) :
    (arrival_step resolve now cur st name).1.is_offline = st.is_offline ∧
    (arrival_step resolve now cur st name).1.consecutive_timeouts =
      st.consecutive_timeouts := by
  unfold arrival_step
  simp only []
  cases hf : find_player st name with
  | some p =>
      obtain ⟨d0, data⟩ := p
      simp only [hf]
      cases hsan : sanitize_doc_id d0 with
      | none => constructor <;> trivial
      | some d => simp only [hsan]; constructor <;> trivial
  | none =>
      simp only [hf]
      cases hres : resolve name with
      | some steam2 =>
          simp only [hres]
          cases hsan : sanitize_doc_id steam2 with
          | none => constructor <;> trivial
          | some d =>
              simp only [hsan]
              cases hl : lookupKey st.players d with
              | none => simp only [hl]; constructor <;> trivial
              | some existing => simp only [hl]; constructor <;> trivial
      | none =>
          simp only [hres]
          cases hl : lookupKey st.players
              ((sanitize_doc_id ("auto_" ++
                if normalize_name name = "" then "unknown"
                else normalize_name name)).getD "auto_fallback") with
          | none => simp only [hl]; constructor <;> trivial
          | some existing => simp only [hl]; constructor <;> trivial

theorem phase5_step_flags (now : Int) (cur : List (String × Int)) (st : St)
    (name : String) :
    (phase5_step now cur st name).1.is_offline = st.is_offline ∧
    (phase5_step now cur st name).1.consecutive_timeouts = st.consecutive_timeouts := by
  unfold phase5_step
  simp only []
  cases hs : lookupKey st.sessions name with
  | some s => simp only [hs]; constructor <;> trivial
  | none =>
      simp only [hs]
      cases hf : find_player st name with
      | none => simp only [hf]; constructor <;> trivial
      | some p => obtain ⟨d, data⟩ := p; simp only [hf]; constructor <;> trivial

theorem stats_step_flags (hour count : Nat) (st : St) :
    (stats_step hour count st).1.is_offline = st.is_offline ∧
    (stats_step hour count st).1.consecutive_timeouts = st.consecutive_timeouts := by
  unfold stats_step
  simp only []
  split_ifs <;> constructor <;> trivial

theorem record_step_flags (count : Nat) (st : St) :
    (record_step count st).1.is_offline = st.is_offline ∧
    (record_step count st).1.consecutive_timeouts = st.consecutive_timeouts := by
  unfold record_step
  split_ifs <;> constructor <;> trivial

theorem playerTotal_mk (players : List (String × PlayerDoc))
    (byName : List (String × String)) (sessions : List (String × SessionRec))
    (prev_times : List (String × Int)) (prev_players : List (String × PrevPlayer))
    (last_update_time : Option Int) (hourly_stats : List (Nat × Nat))
    (daily_peak record_peak record_store : Nat) (record_valid : Bool)
    (today_date : String) (is_offline : Bool) (consecutive_timeouts : Nat)
    (id : String) :
    playerTotal (St.mk players byName sessions prev_times prev_players
      last_update_time hourly_stats daily_peak record_peak record_store
      record_valid today_date is_offline consecutive_timeouts) id =
      ((lookupKey players id).getD default).total_time_seconds := rfl

theorem default_playerDoc_total : (default : PlayerDoc).total_time_seconds = 0 := rfl

theorem find_player_eq_some (st : St) (name d : String) (data : PlayerDoc)
    (h : find_player st name = some (d, data)) :
    lookupKey st.players d = some data := by
  unfold find_player at h
  rcases h1 : lookupKey st.byName (lowerKey name) with _ | d1 <;> rw [h1] at h <;>
    dsimp only [] at h
  · rcases h2 : lookupKey st.byName (normalize_name name) with _ | d2 <;>
      rw [h2] at h <;> dsimp only [] at h
    · exact absurd h (by simp)
    · rcases h3 : lookupKey st.players d2 with _ | v <;> rw [h3] at h <;>
        dsimp only [] at h
      · exact absurd h (by simp)
      · simp only [Option.some.injEq, Prod.mk.injEq] at h
        rw [← h.1, h3, h.2]
  · rcases h3 : lookupKey st.players d1 with _ | v <;> rw [h3] at h <;>
      dsimp only [] at h
    · exact absurd h (by simp)
    · simp only [Option.some.injEq, Prod.mk.injEq] at h
      rw [← h.1, h3, h.2]

theorem reset_step_totals (now : Int) (cur : List (String × Int)) (st : St)
    (name : String) (id : String) :
    playerTotal st id ≤ playerTotal (reset_step now cur st name).1 id := by
  unfold reset_step
  simp only []
  split_ifs with hr
  · cases hs : lookupKey st.sessions name with
    | none =>
        simp only [hs]
        cases hf : find_player st name with
        | none => exact le_refl _
        | some p =>
            obtain ⟨d, data⟩ := p
            simp only [hf, playerTotal_mk]
            exact le_refl _
    | some s =>
        simp only [hs]
        split_ifs with hd
        · cases hf : find_player (finalize_session st name s.doc_id s.started_at now).1
              name with
          | none => simp only [hf]; exact finalize_session_totals _ _ _ _ _ _
          | some p =>
              obtain ⟨d, data⟩ := p
              simp only [hf, playerTotal_mk]
              exact finalize_session_totals _ _ _ _ _ _
        · cases hf : find_player st name with
          | none => simp only [hf]; exact le_refl _
          | some p =>
              obtain ⟨d, data⟩ := p
              simp only [hf, playerTotal_mk]
              exact le_refl _
  · exact le_refl _

theorem departure_step_totals (now : Int) (st : St) (name : String) (id : String) :
    playerTotal st id ≤ playerTotal (departure_step now st name).1 id := by
  unfold departure_step
  simp only []
  cases hs : lookupKey st.sessions name with
  | none => simp only [hs, playerTotal_mk]; exact le_refl _
  | some s =>
      simp only [hs]
      split_ifs with hd
      · simp only [playerTotal_mk]
        exact finalize_session_totals _ _ _ _ _ _
      · cases hf : find_player st name with
        | none => simp only [hf, playerTotal_mk]; exact le_refl _
        | some p =>
            obtain ⟨d, data⟩ := p
            simp only [hf, playerTotal_mk]
            have hdata := find_player_eq_some st name d data hf
            refine le_trans (playerTotal_update_player_cache_le st d
              { data with current_session_start := none } ?_ id) (le_of_eq rfl)
            simp [playerTotal, hdata]
  
theorem arrival_step_totals (resolve : String → Option String) (now : Int)
    (cur : List (String × Int)) (st : St) (name : String) (id : String) :
    playerTotal st id ≤ playerTotal (arrival_step resolve now cur st name).1 id := by
  unfold arrival_step
  simp only []
  cases hf : find_player st name with
  | some p =>
      obtain ⟨d0, data⟩ := p
      simp only [hf]
      cases hsan : sanitize_doc_id d0 with
      | none => exact le_refl _
      | some d =>
          simp only [hsan, playerTotal_mk]
          refine le_trans (playerTotal_update_player_cache_le st d
            { name := ((lookupKey st.players d).getD default).name,
              total_time_seconds :=
                ((lookupKey st.players d).getD default).total_time_seconds,
              session_count := data.session_count + 1,
              session_history := ((lookupKey st.players d).getD default).session_history,
              current_session_start := some (now - (lookupKey cur name).getD 0) }
            (le_refl _) id) (le_of_eq rfl)
  | none =>
      simp only [hf]
      cases hres : resolve name with
      | some steam2 =>
          simp only [hres]
          cases hsan : sanitize_doc_id steam2 with
          | none => exact le_refl _
          | some d =>
              simp only [hsan]
              cases hl : lookupKey st.players d with
              | none =>
                  simp only [hl, playerTotal_mk]
                  refine le_trans (playerTotal_update_player_cache_le st d _ ?_ id)
                    (le_of_eq rfl)
                  simp [playerTotal, hl, default_playerDoc_total]
              | some existing =>
                  simp only [hl, playerTotal_mk]
                  refine le_trans (playerTotal_update_player_cache_le st d _ ?_ id)
                    (le_of_eq rfl)
                  simp [playerTotal, hl]
      | none =>
          simp only [hres]
          cases hl : lookupKey st.players
              ((sanitize_doc_id ("auto_" ++
                if normalize_name name = "" then "unknown"
                else normalize_name name)).getD "auto_fallback") with
          | none =>
              simp only [hl, playerTotal_mk]
              refine le_trans (playerTotal_update_player_cache_le st _ _ ?_ id)
                (le_of_eq rfl)
              simp [playerTotal, hl, default_playerDoc_total]
          | some existing =>
              simp only [hl, playerTotal_mk]
              refine le_trans (playerTotal_update_player_cache_le st _ _ ?_ id)
                (le_of_eq rfl)
              simp [playerTotal, hl]

theorem phase5_step_totals (now : Int) (cur : List (String × Int)) (st : St)
    (name : String) (id : String) :
    playerTotal st id ≤ playerTotal (phase5_step now cur st name).1 id := by
  unfold phase5_step
  simp only []
  cases hs : lookupKey st.sessions name with
  | some s => simp only [hs]; exact le_refl _
  | none =>
      simp only [hs]
      cases hf : find_player st name with
      | none => simp only [hf]; exact le_refl _
      | some p =>
          obtain ⟨d, data⟩ := p
          simp only [hf, playerTotal_mk]
          exact le_refl _

theorem stats_step_totals (hour count : Nat) (st : St) (id : String) :
    playerTotal st id ≤ playerTotal (stats_step hour count st).1 id := by
  unfold stats_step
  simp only []
  split_ifs <;> exact le_refl _

theorem record_step_totals (count : Nat) (st : St) (id : String) :
    playerTotal st id ≤ playerTotal (record_step count st).1 id := by
  unfold record_step
  split_ifs <;> exact le_refl _

theorem successTick_totals (resolve : String → Option String) (st : St)
    (snapshot : List (String × Int)) (now : Int) (hour : Nat) (today : String)
    (id : String) :
    playerTotal st id ≤
      playerTotal (successTick resolve st snapshot now hour today).1 id := by
  simp only [successTick]
  refine le_trans ?_ (record_step_totals _ _ id)
  refine le_trans ?_ (stats_step_totals _ _ _ id)
  simp only [playerTotal_mk]
  refine le_trans ?_ (runFold_playerTotal _ (phase5_step_totals now snapshot) _ _ id)
  refine le_trans ?_
    (runFold_playerTotal _ (arrival_step_totals resolve now snapshot) _ _ id)
  refine le_trans ?_ (runFold_playerTotal _ (departure_step_totals now) _ _ id)
  refine le_trans ?_ (runFold_playerTotal _ (reset_step_totals now snapshot) _ _ id)
  exact le_of_eq (by unfold playerTotal; split <;> rfl)

theorem failTick_totals (st : St) (now : Int) (id : String) :
    playerTotal st id ≤ playerTotal (failTick st now).1 id := by
  unfold failTick
  simp only []
  split_ifs with h1 h2
  · exact le_refl _
  · simp only [playerTotal_mk]
    refine le_trans (le_of_eq rfl)
      (runFold_playerTotal _ ?_ _ _ id)
    intro st' p id'
    dsimp only [offline_step]
    split_ifs with hd
    · exact finalize_session_totals _ _ _ _ _ _
    · exact le_refl _
  · exact le_refl _

theorem detect_missed_departures_totals (st : St) (current : List (String × Int))
    (now : Int) (id : String) :
    playerTotal st id ≤ playerTotal (detect_missed_departures st current now).1 id := by
  unfold detect_missed_departures
  simp only []
  refine runFold_playerTotal _ ?_ _ _ id
  intro st' p id'
  dsimp only [missed_step]
  cases hd : p.2.doc_id with
  | some d =>
      simp only [hd, playerTotal_mk]
      exact finalize_session_totals _ _ _ _ _ _
  | none =>
      simp only [hd, playerTotal_mk]
      exact le_refl _

/-! ### Claim C9 — cumulative totals never decrease -/

/-- C9: for every identity, `total_time_seconds` is monotonically
non-decreasing: a `finalize_session` call, a full successful tick, a failed
tick (including the offline transition that finalizes every open session),
and the missed-departure recovery pass all leave every identity's cumulative
total greater than or equal to its old value. -/
theorem total_time_monotone (st : St) (id : String) :
    (∀ (name doc_id : String) (s e : Int),
      playerTotal st id ≤ playerTotal (finalize_session st name doc_id s e).1 id) ∧
    (∀ (resolve : String → Option String) (snapshot : List (String × Int))
      (now : Int) (hour : Nat) (today : String),
      playerTotal st id ≤
        playerTotal (successTick resolve st snapshot now hour today).1 id) ∧
    (∀ now : Int, playerTotal st id ≤ playerTotal (failTick st now).1 id) ∧
    (∀ (current : List (String × Int)) (now : Int),
      playerTotal st id ≤ playerTotal (detect_missed_departures st current now).1 id) := by
  refine ⟨?_, ?_, ?_, ?_⟩
  · intro name doc_id s e
    exact finalize_session_totals st name doc_id s e id
  · intro resolve snapshot now hour today
    exact successTick_totals resolve st snapshot now hour today id
  · intro now
    exact failTick_totals st now id
  · intro current now
    exact detect_missed_departures_totals st current now id

/-! ### Claim C5 — offline transition -/

theorem finalize_session_trace (st : St) (n d : String) (s e : Int) :
    (finalize_session st n d s e).2 =
      if d ≠ "" ∧ 0 ≤ e - s then
        [Event.finalizeEv n d s e (min (e - s) MAX_SESSION_DURATION)]
      else [] := by
  unfold finalize_session
  simp only []
  by_cases hd : d = ""
  · simp [hd]
  · by_cases hneg : e - s < 0
    · simp only [if_neg hd, if_pos hneg]
      rw [if_neg]
      push_neg
      intro _
      omega
    · simp only [if_neg hd, if_neg hneg, cap_eq_min]
      rw [if_pos ⟨hd, by omega⟩]

theorem runFold_offline_trace (now : Int) (xs : List (String × SessionRec)) (st : St) :
    (runFold (offline_step now) st xs).2 = xs.filterMap (offlineFinalizeEv now) := by
  induction xs generalizing st with
  | nil => rfl
  | cons p ps ih =>
      rw [runFold_cons]
      dsimp only [offline_step]
      rw [List.filterMap_cons]
      by_cases hd : p.2.doc_id = ""
      · simp only [hd, ne_eq, not_true_eq_false, if_false]
        rw [ih]
        have : offlineFinalizeEv now p = none := by
          unfold offlineFinalizeEv
          rw [if_neg]
          push_neg
          intro h
          exact absurd hd h
        rw [this]
        rfl
      · simp only [ne_eq, hd, not_false_eq_true, if_true]
        rw [finalize_session_trace, ih]
        unfold offlineFinalizeEv
        by_cases hdur : 0 ≤ now - p.2.started_at
        · rw [if_pos ⟨hd, hdur⟩, if_pos ⟨hd, hdur⟩]
          rfl
        · rw [if_neg (by intro h; exact hdur h.2), if_neg (by intro h; exact hdur h.2)]
          rfl

theorem runFold_offline_flags (now : Int) (xs : List (String × SessionRec)) (st : St) :
    (runFold (offline_step now) st xs).1.is_offline = st.is_offline := by
  refine (runFold_flags _ ?_ st xs).1
  intro st' p
  dsimp only [offline_step]
  split_ifs with hd
  · exact finalize_session_flags _ _ _ _ _
  · exact ⟨rfl, rfl⟩

/-- C5: while online, reaching the consecutive-failure threshold (3) on a
failed poll triggers the offline transition exactly once: the state becomes
offline, every open session is finalized at `now` (each surviving session
contributing exactly its one finalize event, at most one per name), the
open-session and reported-time maps are cleared, and exactly one offline
status write happens; while already offline a further failure only bumps the
counter, performing no finalization and no write; and any successful tick
returns the state to online with the failure counter reset to 0. -/
theorem offline_transition_spec (st : St) (now : Int) :
    (st.is_offline = false →
      TIMEOUTS_BEFORE_OFFLINE ≤ st.consecutive_timeouts + 1 →
      (failTick st now).1.is_offline = true ∧
      (failTick st now).1.sessions = [] ∧
      (failTick st now).1.prev_times = [] ∧
      (failTick st now).2 =
        st.sessions.filterMap (offlineFinalizeEv now) ++ [Event.statusWrite]) ∧
    (st.is_offline = true →
      failTick st now =
        ({ st with consecutive_timeouts := st.consecutive_timeouts + 1 }, [])) ∧
    (∀ (resolve : String → Option String) (snapshot : List (String × Int))
        (hour : Nat) (today : String),
      (successTick resolve st snapshot now hour today).1.is_offline = false ∧
      (successTick resolve st snapshot now hour today).1.consecutive_timeouts = 0) := by
  refine ⟨?_, ?_, ?_⟩
  · intro hoff hthr
    unfold failTick
    simp only [hoff, Bool.false_eq_true, if_false, if_pos hthr]
    refine ⟨?_, by trivial, by trivial, ?_⟩
    · exact runFold_offline_flags now _ _
    · rw [runFold_offline_trace]
  · intro hoff
    unfold failTick
    simp only [hoff, if_true]
  · intro resolve snapshot hour today
    constructor
    · simp only [successTick]
      refine ((record_step_flags _ _).1).trans ?_
      refine ((stats_step_flags _ _ _).1).trans ?_
      refine ((runFold_flags _ (phase5_step_flags now snapshot) _ _).1).trans ?_
      refine ((runFold_flags _ (arrival_step_flags resolve now snapshot) _ _).1).trans ?_
      refine ((runFold_flags _ (departure_step_flags now) _ _).1).trans ?_
      refine ((runFold_flags _ (reset_step_flags now snapshot) _ _).1).trans ?_
      rfl
    · simp only [successTick]
      refine ((record_step_flags _ _).2).trans ?_
      refine ((stats_step_flags _ _ _).2).trans ?_
      refine ((runFold_flags _ (phase5_step_flags now snapshot) _ _).2).trans ?_
      refine ((runFold_flags _ (arrival_step_flags resolve now snapshot) _ _).2).trans ?_
      refine ((runFold_flags _ (departure_step_flags now) _ _).2).trans ?_
      refine ((runFold_flags _ (reset_step_flags now snapshot) _ _).2).trans ?_
      rfl

/-- Closed instance of `offline_transition_spec`: a third consecutive failure
at an online state with one open session finalizes it and writes the offline
status once; a failure while already offline changes only the counter. -/
theorem offline_transition_spec_witness :
    (failTick { St0 with
        consecutive_timeouts := 2,
        sessions := [("Alice", ⟨100, "D"⟩)] } 1000).1.is_offline = true ∧
    (failTick { St0 with
        consecutive_timeouts := 2,
        sessions := [("Alice", ⟨100, "D"⟩)] } 1000).2 =
      [(("Alice", ⟨100, "D"⟩) : String × SessionRec)].filterMap
        (offlineFinalizeEv 1000) ++ [Event.statusWrite] ∧
    failTick { St0 with
        is_offline := true,
        consecutive_timeouts := 7 } 1000 =
      ({ St0 with
        is_offline := true,
        consecutive_timeouts := 8 }, []) := by
  have h1 := (offline_transition_spec { St0 with
      consecutive_timeouts := 2,
      sessions := [("Alice", ⟨100, "D"⟩)] } 1000).1 (by decide) (by decide)
  have h2 := (offline_transition_spec { St0 with
      is_offline := true,
      consecutive_timeouts := 7 } 1000).2.1 (by decide)
  exact ⟨h1.1, h1.2.2.2, h2⟩

/-! ### Claim C7 — statistics aggregator writes -/

/-- C7 counterexample: running the PHASE 7 stats update over the hourly
concurrency sequence `[3,3,5,5,2]` within one hour, starting from a state
with no cached value for that hour, stores the peak 5 but performs TWO stats
writes (the first observation of an uncached hour also writes), refuting
"exactly one peak-write". -/
theorem hourly_peak_single_write_cex :
    St0.hourly_stats = [] ∧
    lookupKey (statsRun 10 [3, 3, 5, 5, 2] St0).1.hourly_stats 10 = some 5 ∧
    writeCount (statsRun 10 [3, 3, 5, 5, 2] St0).2 = 2 := by decide

/-- C7 amended: the stats aggregator writes the hourly/daily document exactly
when the hour has no cached value or the observed concurrency exceeds the
cached value (never more than one write per observation); consequently, for
the hourly sequence `[3,3,5,5,2]` within one hour starting uncached, the
stored hourly peak is 5 and exactly two peak-writes occur — one seeding the
hour at 3, one raising it to 5. -/
theorem stats_write_on_change (st : St) (hour : Nat) :
    (∀ count : Nat,
      ((stats_step hour count st).2 = [Event.statsWrite] ↔
        lookupKey st.hourly_stats hour = none ∨
        (∃ m, lookupKey st.hourly_stats hour = some m ∧ m < count)) ∧
      ((stats_step hour count st).2 = [] ∨
        (stats_step hour count st).2 = [Event.statsWrite])) ∧
    (lookupKey st.hourly_stats hour = none →
      lookupKey (statsRun hour [3, 3, 5, 5, 2] st).1.hourly_stats hour = some 5 ∧
      writeCount (statsRun hour [3, 3, 5, 5, 2] st).2 = 2) := by
  constructor
  · intro count
    constructor
    · unfold stats_step
      cases h : lookupKey st.hourly_stats hour with
      | none => simp [h]
      | some m =>
          simp only [h]
          by_cases hc : m < count
          · rw [if_pos (Or.inr (by exact_mod_cast hc))]
            simp [hc]
          · rw [if_neg (by push_neg; constructor <;> omega)]
            simp [hc]
    · unfold stats_step
      simp only []
      split_ifs <;> simp
  · intro h
    have s1 : stats_step hour 3 st =
        ({ st with
            hourly_stats := setKey st.hourly_stats hour 3,
            daily_peak := max st.daily_peak 3 }, [Event.statsWrite]) := by
      unfold stats_step
      rw [h]
      norm_num
    have s2 : stats_step hour 3
        ({ st with
            hourly_stats := setKey st.hourly_stats hour 3,
            daily_peak := max st.daily_peak 3 } : St) =
        ({ st with
            hourly_stats := setKey st.hourly_stats hour 3,
            daily_peak := max st.daily_peak 3 }, []) := by
      unfold stats_step
      simp only []
      rw [lookupKey_setKey_self]
      norm_num
    have s3 : stats_step hour 5
        ({ st with
            hourly_stats := setKey st.hourly_stats hour 3,
            daily_peak := max st.daily_peak 3 } : St) =
        ({ st with
            hourly_stats := setKey (setKey st.hourly_stats hour 3) hour 5,
            daily_peak := max (max st.daily_peak 3) 5 }, [Event.statsWrite]) := by
      unfold stats_step
      simp only []
      rw [lookupKey_setKey_self]
      norm_num
    have s4 : stats_step hour 5
        ({ st with
            hourly_stats := setKey (setKey st.hourly_stats hour 3) hour 5,
            daily_peak := max (max st.daily_peak 3) 5 } : St) =
        ({ st with
            hourly_stats := setKey (setKey st.hourly_stats hour 3) hour 5,
            daily_peak := max (max st.daily_peak 3) 5 }, []) := by
      unfold stats_step
      simp only []
      rw [lookupKey_setKey_self]
      norm_num
    have s5 : stats_step hour 2
        ({ st with
            hourly_stats := setKey (setKey st.hourly_stats hour 3) hour 5,
            daily_peak := max (max st.daily_peak 3) 5 } : St) =
        ({ st with
            hourly_stats := setKey (setKey st.hourly_stats hour 3) hour 5,
            daily_peak := max (max st.daily_peak 3) 5 }, []) := by
      unfold stats_step
      simp only []
      rw [lookupKey_setKey_self]
      norm_num
    have hrun : statsRun hour [3, 3, 5, 5, 2] st =
        ({ st with
            hourly_stats := setKey (setKey st.hourly_stats hour 3) hour 5,
            daily_peak := max (max st.daily_peak 3) 5 },
          [Event.statsWrite] ++ ([] ++ ([Event.statsWrite] ++ ([] ++ ([] ++ []))))) := by
      unfold statsRun
      rw [runFold_cons, s1, runFold_cons, s2, runFold_cons, s3, runFold_cons, s4,
        runFold_cons, s5, runFold_nil]
    rw [hrun]
    constructor
    · exact lookupKey_setKey_self _ _ _
    · rfl

/-- Closed instance of the amended stats theorem at the empty state. -/
theorem stats_write_on_change_witness :
    lookupKey (statsRun 10 [3, 3, 5, 5, 2] St0).1.hourly_stats 10 = some 5 ∧
    writeCount (statsRun 10 [3, 3, 5, 5, 2] St0).2 = 2 :=
  (stats_write_on_change St0 10).2 (by decide)

/-! ### Claim C4 — missed-departure recovery -/

theorem runFold_missed_trace (estimated : Int) (xs : List (String × PrevPlayer))
    (st : St) :
    (runFold (missed_step estimated) st xs).2 =
      (xs.map (missedEv estimated)).flatten := by
  induction xs generalizing st with
  | nil => rfl
  | cons p ps ih =>
      rw [runFold_cons]
      dsimp only [missed_step]
      rw [List.map_cons, List.flatten_cons, ih]
      congr 1
      cases hd : p.2.doc_id with
      | some d =>
          simp only [hd]
          rw [finalize_session_trace]
          simp [missedEv, hd]
      | none => simp [missedEv, hd]

theorem missedEv_filter_eq_nil (estimated : Int) (n : String)
    (q : String × PrevPlayer) (hq : q.1 ≠ n) :
    (missedEv estimated q).filter (finalizeFor n) = [] := by
  cases hd : q.2.doc_id with
  | some d =>
      simp only [missedEv, hd]
      split_ifs with hcond
      · simp [finalizeFor, hq]
      · rfl
  | none => simp [missedEv, hd, finalizeFor]

theorem missed_flatten_filter_nil (estimated : Int) (n : String)
    (qs : List (String × PrevPlayer)) (h : ∀ q ∈ qs, q.1 ≠ n) :
    ((qs.map (missedEv estimated)).flatten).filter (finalizeFor n) = [] := by
  induction qs with
  | nil => rfl
  | cons q qs ih =>
      rw [List.map_cons, List.flatten_cons, List.filter_append]
      rw [missedEv_filter_eq_nil estimated n q (h q (List.mem_cons_self _ _)),
        ih (fun r hr => h r (List.mem_cons_of_mem _ hr))]
      rfl

theorem missed_flatten_filter_one (estimated : Int)
    (xs : List (String × PrevPlayer)) (hnd : (xs.map Prod.fst).Nodup)
    (p : String × PrevPlayer) (hp : p ∈ xs)
    (d : String) (hd : p.2.doc_id = some d) (hne : d ≠ "")
    (hdur : 0 ≤ estimated - p.2.session_started_at) :
    (((xs.map (missedEv estimated)).flatten).filter (finalizeFor p.1)).length = 1 := by
  induction xs with
  | nil => simp at hp
  | cons q qs ih =>
      rw [List.map_cons, List.flatten_cons, List.filter_append, List.length_append]
      simp only [List.map_cons, List.nodup_cons] at hnd
      rcases List.mem_cons.mp hp with hp1 | hp2
      · subst hp1
        have h1 : (missedEv estimated p).filter (finalizeFor p.1) =
            [Event.finalizeEv p.1 d p.2.session_started_at estimated
              (min (estimated - p.2.session_started_at) MAX_SESSION_DURATION)] := by
          simp only [missedEv, hd]
          rw [if_pos ⟨hne, hdur⟩]
          simp [finalizeFor]
        have h2 : ∀ q ∈ qs, q.1 ≠ p.1 := by
          intro q hq hcontra
          exact hnd.1 (hcontra ▸ List.mem_map_of_mem Prod.fst hq)
        rw [h1, missed_flatten_filter_nil estimated p.1 qs h2]
        rfl
      · have hq : q.1 ≠ p.1 := by
          intro hcontra
          exact hnd.1 (hcontra ▸ List.mem_map_of_mem Prod.fst hp2)
        rw [missedEv_filter_eq_nil estimated p.1 q hq]
        simp only [List.length_nil, Nat.zero_add]
        exact ih hnd.2 hp2

/-- C4 counterexample: a name present in the persisted snapshot and absent
from the first poll whose identity cannot be found locally (`doc_id` absent —
e.g. its player document is gone or renamed) is NOT finalized: the recovery
pass emits zero finalize events for it (only a logged skip), refuting "every
such name is finalized exactly once". -/
theorem missed_departure_finalize_cex :
    "Gone" ∈ ({ St0 with
        prev_players := [("Gone", ⟨50, 200, none⟩)],
        last_update_time := some 5000 } : St).prev_players.map Prod.fst ∧
    ((detect_missed_departures { St0 with
        prev_players := [("Gone", ⟨50, 200, none⟩)],
        last_update_time := some 5000 } [] 6000).2.filter
      (finalizeFor "Gone")).length = 0 ∧
    Event.skipLog "Gone" ∈ (detect_missed_departures { St0 with
        prev_players := [("Gone", ⟨50, 200, none⟩)],
        last_update_time := some 5000 } [] 6000).2 := by decide

/-- C4 amended: on a fresh run with a recovered last-write timestamp `t`,
every name of the persisted snapshot absent from the first successful poll
whose recovered entry carries a doc id is finalized exactly once, at the
estimated departure time `t + 30` (last persisted write plus the fixed
30-second grace period); an entry without a recoverable identity emits a
logged skip instead of a finalize — so no missed name is silently dropped.
The whole trace equals the per-entry events of the missed names. -/
theorem missed_departures_spec (st : St) (current : List (String × Int))
    (now t : Int) (hl : st.last_update_time = some t) :
    ((detect_missed_departures st current now).2 =
      ((st.prev_players.filter
        (fun p => decide (p.1 ∉ current.map Prod.fst))).map
          (missedEv (t + 30))).flatten) ∧
    ((st.prev_players.map Prod.fst).Nodup →
      ∀ p ∈ st.prev_players, p.1 ∉ current.map Prod.fst →
        ∀ d, p.2.doc_id = some d → d ≠ "" → p.2.session_started_at ≤ t + 30 →
          ((detect_missed_departures st current now).2.filter
            (finalizeFor p.1)).length = 1) ∧
    (∀ p ∈ st.prev_players, p.1 ∉ current.map Prod.fst → p.2.doc_id = none →
      Event.skipLog p.1 ∈ (detect_missed_departures st current now).2) := by
  have htrace : (detect_missed_departures st current now).2 =
      ((st.prev_players.filter
        (fun p => decide (p.1 ∉ current.map Prod.fst))).map
          (missedEv (t + 30))).flatten := by
    unfold detect_missed_departures
    simp only [hl]
    exact runFold_missed_trace _ _ _
  refine ⟨htrace, ?_, ?_⟩
  · intro hnd p hp habs d hd hne hts
    rw [htrace]
    have hsub : List.Sublist
        ((st.prev_players.filter
          (fun p => decide (p.1 ∉ current.map Prod.fst))).map Prod.fst)
        (st.prev_players.map Prod.fst) :=
      (List.filter_sublist _).map Prod.fst
    refine missed_flatten_filter_one (t + 30) _ (hnd.sublist hsub) p ?_ d hd hne
      (by omega)
    exact List.mem_filter.mpr ⟨hp, by simpa using habs⟩
  · intro p hp habs hd
    rw [htrace]
    have hmem : p ∈ st.prev_players.filter
        (fun p => decide (p.1 ∉ current.map Prod.fst)) :=
      List.mem_filter.mpr ⟨hp, by simpa using habs⟩
    have hev : Event.skipLog p.1 ∈ missedEv (t + 30) p := by
      simp [missedEv, hd]
    exact List.mem_flatten.mpr ⟨missedEv (t + 30) p, List.mem_map_of_mem _ hmem, hev⟩

/-- Closed instance of `missed_departures_spec`: with a persisted snapshot
`{Old ↦ doc D, Gone ↦ no doc}` and an empty first poll, `Old` is finalized
exactly once and `Gone` produces a logged skip. -/
theorem missed_departures_spec_witness :
    ((detect_missed_departures { St0 with
        prev_players := [("Old", ⟨900, 100, some "D"⟩), ("Gone", ⟨50, 200, none⟩)],
        last_update_time := some 5000 } [] 6000).2.filter
      (finalizeFor "Old")).length = 1 ∧
    Event.skipLog "Gone" ∈ (detect_missed_departures { St0 with
        prev_players := [("Old", ⟨900, 100, some "D"⟩), ("Gone", ⟨50, 200, none⟩)],
        last_update_time := some 5000 } [] 6000).2 := by
  have h := missed_departures_spec { St0 with
      prev_players := [("Old", ⟨900, 100, some "D"⟩), ("Gone", ⟨50, 200, none⟩)],
      last_update_time := some 5000 } [] 6000 5000 (by decide)
  constructor
  · exact h.2.1 (by decide) ("Old", ⟨900, 100, some "D"⟩) (by decide) (by decide)
      "D" (by decide) (by decide) (by decide)
  · exact h.2.2 ("Gone", ⟨50, 200, none⟩) (by decide) (by decide) (by decide)

/-! ### Claim C2 — reset detection -/

theorem lookupKey_setKey2_self {κ α : Type} [DecidableEq κ]
    (l : List (κ × α)) (a b : κ) (v : α) :
    lookupKey (setKey (setKey l a v) b v) a = some v := by
  by_cases hab : b = a
  · subst hab
    exact lookupKey_setKey_self _ _ _
  · rw [lookupKey_setKey_ne _ b a v hab, lookupKey_setKey_self]

theorem finalize_session_state (st : St) (n d : String) (s e : Int)
    (hd : d ≠ "") (hdur : 0 ≤ e - s) :
    ∃ data', (finalize_session st n d s e).1 = update_player_cache st d data' ∧
      data'.name = ((lookupKey st.players d).getD default).name ∧
      data'.total_time_seconds = playerTotal st d + min (e - s) MAX_SESSION_DURATION := by
  unfold finalize_session
  simp only [if_neg hd, if_neg (not_lt.mpr hdur), cap_eq_min]
  exact ⟨_, rfl, rfl, rfl⟩

theorem find_player_update_self (st : St) (d : String) (data' : PlayerDoc)
    (hname : data'.name ≠ "") :
    find_player (update_player_cache st d data') data'.name = some (d, data') := by
  unfold find_player update_player_cache
  simp only [if_neg hname]
  rw [lookupKey_setKey2_self]
  dsimp only []
  rw [lookupKey_setKey_self]

/-- C2 counterexample: a stayed name whose reported elapsed drops from 940s to
800s (beyond the 60s tolerance) but whose open session carries a much older
absolute start (recovered from the persisted snapshot) is finalized with
duration 86400s (the 24h cap) — exceeding the previous reported elapsed
(940s) by far more than any grace margin (here 85000s): the code caps the
finalized duration only at 24h, never at `previous elapsed + grace`. -/
theorem reset_duration_bound_cex :
    lookupKey (resetSt (-89000)).prev_times "Old" = some 940 ∧
    ((800 : Int) < 940 - 60) ∧
    (reset_step 1000 [("Old", 800)] (resetSt (-89000)) "Old").2 =
      [Event.finalizeEv "Old" "STEAM1" (-89000) 1000 86400,
       Event.joinEv "Old" "STEAM1" 200] ∧
    ((86400 : Int) > 940 + 85000) := by decide

/-- C2 amended: for a stayed name whose reported elapsed drops by more than
the 60-second tolerance and whose open session has a doc id and a locally
resolvable identity, the reset branch performs exactly one finalize of the old
session and opens exactly one new session with `start = now − new_elapsed`;
the finalized duration is `now − start` capped only at 24h (86400s) — it is
NOT bounded by the previous reported elapsed plus a grace margin. -/
theorem reset_detection_spec (now : Int) (current : List (String × Int)) (st : St)
    (name : String) (c p s : Int) (d : String) (data : PlayerDoc)
    (hc : lookupKey current name = some c)
    (hp : lookupKey st.prev_times name = some p)
    (hreset : c < p - 60)
    (hs : lookupKey st.sessions name = some ⟨s, d⟩)
    (hd : d ≠ "")
    (hdoc : lookupKey st.players d = some data)
    (hname : data.name = name)
    (hname0 : name ≠ "")
    (hdur : 0 ≤ now - s) :
    (reset_step now current st name).2 =
      [Event.finalizeEv name d s now (min (now - s) MAX_SESSION_DURATION),
       Event.joinEv name d (now - c)] ∧
    lookupKey (reset_step now current st name).1.sessions name =
      some ⟨now - c, d⟩ ∧
    playerTotal (reset_step now current st name).1 d =
      playerTotal st d + min (now - s) MAX_SESSION_DURATION := by
  obtain ⟨data', heq, hn', ht'⟩ := finalize_session_state st name d s now hd hdur
  have hn'2 : data'.name = name := by
    rw [hn', hdoc]
    exact hname
  have hfp : find_player (finalize_session st name d s now).1 name =
      some (d, data') := by
    rw [heq, ← hn'2]
    exact find_player_update_self st d data' (by rw [hn'2]; exact hname0)
  have htr : (finalize_session st name d s now).2 =
      [Event.finalizeEv name d s now (min (now - s) MAX_SESSION_DURATION)] := by
    rw [finalize_session_trace]
    rw [if_pos ⟨hd, hdur⟩]
  unfold reset_step
  simp only [hc, hp, Option.getD_some, if_pos hreset, hs, ne_eq, hd,
    not_false_eq_true, if_true, hfp]
  refine ⟨?_, ?_, ?_⟩
  · rw [htr]
    rfl
  · rw [lookupKey_setKey_self]
  · rw [playerTotal_mk, heq]
    unfold update_player_cache playerTotal
    simp only []
    rw [lookupKey_setKey_self]
    exact ht'

/-- Closed instance of `reset_detection_spec`: a stayed player whose counter
drops from 940s to 800s has the old session (start 100) finalized once with
duration `min 900 86400` and a new session opened at `1000 − 800 = 200`. -/
theorem reset_detection_spec_witness :
    (reset_step 1000 [("Old", 800)] (resetSt 100) "Old").2 =
      [Event.finalizeEv "Old" "STEAM1" 100 1000 (min (1000 - 100) MAX_SESSION_DURATION),
       Event.joinEv "Old" "STEAM1" (1000 - 800)] :=
  (reset_detection_spec 1000 [("Old", 800)] (resetSt 100) "Old" 800 940 100 "STEAM1"
      (oldDoc (some 100))
      (by decide) (by decide) (by decide) (by decide) (by decide) (by decide)
      (by decide) (by decide) (by decide)).1

/-! ### Claim C6 — replay of an identical snapshot -/

/-- C6 counterexample: a tick whose snapshot is identical to the previous
tick's (same single name, same reported elapsed, server online both times,
same day) still performs a persistent write when the tick falls into an hour
with no cached stats value: the PHASE 7 stats document write fires, refuting
"zero additional persistent writes". -/
theorem replay_write_free_cex :
    ({ St0 with
        sessions := [("Alice", ⟨950, "D"⟩)],
        prev_times := [("Alice", 50)],
        today_date := "d",
        hourly_stats := [(10, 1)] } : St).prev_times = [("Alice", 50)] ∧
    ({ St0 with
        sessions := [("Alice", ⟨950, "D"⟩)],
        prev_times := [("Alice", 50)],
        today_date := "d",
        hourly_stats := [(10, 1)] } : St).sessions.map Prod.fst =
      [("Alice", (50 : Int))].map Prod.fst ∧
    ({ St0 with
        sessions := [("Alice", ⟨950, "D"⟩)],
        prev_times := [("Alice", 50)],
        today_date := "d",
        hourly_stats := [(10, 1)] } : St).is_offline = false ∧
    (successTick (fun _ => none) { St0 with
        sessions := [("Alice", ⟨950, "D"⟩)],
        prev_times := [("Alice", 50)],
        today_date := "d",
        hourly_stats := [(10, 1)] } [("Alice", 50)] 1000 11 "d").2 =
      [Event.statsWrite] ∧
    writeCount [Event.statsWrite] ≠ 0 := by decide

/-- C6 amended: a tick whose snapshot is identical to the previous tick's
snapshot (same names — every snapshot name has an open session and vice
versa — reported elapsed within the no-reset tolerance of the last reported
values, server online both times), falling in the same day and in an hour
whose cached stats value already covers the count, with the all-time record
already settled, produces zero events, hence zero additional persistent
writes. -/
theorem replay_write_free (resolve : String → Option String) (st : St)
    (snap : List (String × Int)) (now : Int) (hour : Nat) (today : String)
    (hoff : st.is_offline = false)
    (hday : st.today_date = today)
    (hk1 : ∀ n, n ∈ snap.map Prod.fst → n ∈ st.sessions.map Prod.fst)
    (hk2 : ∀ n, n ∈ st.sessions.map Prod.fst → n ∈ snap.map Prod.fst)
    (hprev : ∀ n, (lookupKey st.prev_times n).getD 0 - 60 ≤ (lookupKey snap n).getD 0)
    (hstats : ∃ m, lookupKey st.hourly_stats hour = some m ∧ snap.length ≤ m)
    (hrec : st.record_valid = false ∨ snap.length ≤ st.record_peak ∨
      snap.length < MIN_RECORD_THRESHOLD) :
    (successTick resolve st snap now hour today).2 = [] := by
  subst hday
  obtain ⟨m, hm, hle⟩ := hstats
  have hjoined : List.filter (fun n => decide (n ∉ List.map Prod.fst st.sessions))
      (List.map Prod.fst snap) = [] := by
    rw [List.filter_eq_nil_iff]
    intro n hn
    simpa using hk1 n hn
  have hleft : List.filter (fun n => decide (n ∉ List.map Prod.fst snap))
      (List.map Prod.fst st.sessions) = [] := by
    rw [List.filter_eq_nil_iff]
    intro n hn
    simpa using hk2 n hn
  have hreset : runFold (reset_step now snap)
      ({ st with is_offline := false, consecutive_timeouts := 0 } : St)
      (List.filter (fun n => decide (n ∈ List.map Prod.fst st.sessions))
        (List.map Prod.fst snap)) =
      ({ st with is_offline := false, consecutive_timeouts := 0 }, []) := by
    apply runFold_id
    intro n hn
    unfold reset_step
    rw [if_neg]
    show ¬ ((lookupKey snap n).getD 0 <
      (lookupKey st.prev_times n).getD 0 - 60)
    exact not_lt.mpr (by have := hprev n; omega)
  have hphase5 : runFold (phase5_step now snap)
      ({ st with is_offline := false, consecutive_timeouts := 0 } : St)
      (List.filter (fun n => decide (n ∈ List.map Prod.fst st.sessions))
        (List.map Prod.fst snap)) =
      ({ st with is_offline := false, consecutive_timeouts := 0 }, []) := by
    apply runFold_id
    intro n hn
    have hmem : n ∈ List.map Prod.fst st.sessions := by
      have := List.mem_filter.mp hn
      simpa using this.2
    obtain ⟨v, hv⟩ :=
      Option.isSome_iff_exists.mp (lookupKey_isSome_of_mem_keys st.sessions n hmem)
    unfold phase5_step
    dsimp only []
    simp only [hv]
  have hstats2 : stats_step hour snap.length
      ({ st with
          prev_times := snap,
          is_offline := false,
          consecutive_timeouts := 0 } : St) =
      ({ st with
          prev_times := snap,
          is_offline := false,
          consecutive_timeouts := 0 }, []) := by
    unfold stats_step
    dsimp only []
    simp only [hm]
    have hcond : ¬ (((m : Nat) : Int) = -1 ∨
        ((snap.length : Nat) : Int) > (m : Int)) := by
      push_neg
      exact ⟨by omega, by exact_mod_cast hle⟩
    rw [if_neg hcond]
  have hrec2 : record_step snap.length
      ({ st with
          prev_times := snap,
          is_offline := false,
          consecutive_timeouts := 0 } : St) =
      ({ st with
          prev_times := snap,
          is_offline := false,
          consecutive_timeouts := 0 }, []) := by
    unfold record_step
    rw [if_neg]
    dsimp only []
    rintro ⟨hv, hlt, hth⟩
    rcases hrec with h | h | h
    · rw [h] at hv
      cases hv
    · omega
    · simp only [MIN_RECORD_THRESHOLD] at h hth
      omega
  simp only [successTick, ne_eq, not_true_eq_false, if_false, hoff, hjoined, hleft,
    runFold_nil, hreset, hphase5, hstats2, hrec2, List.isEmpty_nil, Bool.not_true,
    Bool.or_self, Bool.or_false, Bool.false_or, Bool.false_eq_true, if_false,
    List.append_nil, List.nil_append]

/-- Closed instance of `replay_write_free`: the same state as the
counterexample but ticking within the cached hour 10 produces no events. -/
theorem replay_write_free_witness :
    (successTick (fun _ => none) { St0 with
        sessions := [("Alice", ⟨950, "D"⟩)],
        prev_times := [("Alice", 50)],
        today_date := "d",
        hourly_stats := [(10, 1)] } [("Alice", 50)] 1000 10 "d").2 = [] := by
  refine replay_write_free (fun _ => none) _ _ 1000 10 "d" (by decide) (by decide)
    ?_ ?_ ?_ ⟨1, by decide, by decide⟩ (Or.inl (by decide))
  · intro n hn
    simp only [List.map_cons, List.map_nil, List.mem_singleton] at hn
    subst hn
    decide
  · intro n hn
    simp only [List.map_cons, List.map_nil, List.mem_singleton] at hn
    subst hn
    decide
  · intro n
    dsimp only []
    cases h : lookupKey [("Alice", (50 : Int))] n with
    | none => simp [h]
    | some v => simp [h]

/-! ### Claim C1 — rename handling -/

/-- C1 counterexample: in a tick where `Old` leaves and `New` joins with the
resolved stable id `STEAM1` equal to the id behind `Old`'s open session (a
rename), the code does NOT transfer the session: it finalizes the old session
(finalize event present), increments `session_count` from 2 to 3, and opens a
fresh session whose `start_timestamp` is re-derived as `now − elapsed`
(70 ≠ 100, the transferred start the claim requires). -/
theorem rename_transfer_cex :
    lookupKey (renameSt 100 500 2 [] (some 100)).sessions "Old" =
      some ⟨100, "STEAM1"⟩ ∧
    renameResolve "New" = some "STEAM1" ∧
    Event.finalizeEv "Old" "STEAM1" 100 1000 900 ∈
      (successTick renameResolve (renameSt 100 500 2 [] (some 100))
        [("New", 930)] 1000 10 "").2 ∧
    playerSessionCount (successTick renameResolve (renameSt 100 500 2 [] (some 100))
        [("New", 930)] 1000 10 "").1 "STEAM1" = 3 ∧
    playerSessionCount (renameSt 100 500 2 [] (some 100)) "STEAM1" = 2 ∧
    lookupKey (successTick renameResolve (renameSt 100 500 2 [] (some 100))
        [("New", 930)] 1000 10 "").1.sessions "New" = some ⟨70, "STEAM1"⟩ ∧
    ((70 : Int) ≠ 100) := by decide

/-- C1 amended: there is no rename transfer. In a tick where the old name
departs and the joined name resolves to the stable id behind the departed
open session, the old session is finalized as an ordinary departure (its
capped duration added to the identity's total), and a fresh session is opened
for the same identity document with `start = now − reported elapsed` and
`session_count` incremented by one: identity continuity is preserved via the
stable id, but the presence interval is split into two sessions. -/
theorem rename_split_sessions (s e now total : Int) (count : Nat)
    (hist : List (Int × Int × Int)) (css : Option Int) (hour : Nat)
    (hdur : 0 ≤ now - s) :
    Event.finalizeEv "Old" "STEAM1" s now (min (now - s) MAX_SESSION_DURATION) ∈
      (successTick renameResolve (renameSt s total count hist css)
        [("New", e)] now hour "").2 ∧
    playerSessionCount (successTick renameResolve (renameSt s total count hist css)
        [("New", e)] now hour "").1 "STEAM1" = count + 1 ∧
    lookupKey (successTick renameResolve (renameSt s total count hist css)
        [("New", e)] now hour "").1.sessions "New" = some ⟨now - e, "STEAM1"⟩ ∧
    playerTotal (successTick renameResolve (renameSt s total count hist css)
        [("New", e)] now hour "").1 "STEAM1" =
      total + min (now - s) MAX_SESSION_DURATION := by
  have hneg : ¬ (now - s < 0) := not_lt.mpr hdur
  simp [successTick, reset_step, departure_step, arrival_step, phase5_step,
    stats_step, record_step, runFold, finalize_session, update_player_cache,
    find_player, lowerKey, normalize_name, sanitize_doc_id, forbidden_char,
    lookupKey, setKey, delKey, playerSessionCount, playerTotal, renameResolve,
    renameSt, renameDoc, St0, cap_eq_min, hneg, MAX_SESSION_HISTORY]

/-- Closed instance of `rename_split_sessions` at concrete timestamps. -/
theorem rename_split_sessions_witness :
    Event.finalizeEv "Old" "STEAM1" 100 1000 (min (1000 - 100) MAX_SESSION_DURATION) ∈
      (successTick renameResolve (renameSt 100 500 2 [] (some 100))
        [("New", 930)] 1000 10 "").2 :=
  (rename_split_sessions 100 930 1000 500 2 [] (some 100) 10 (by decide)).1

end GmodStatus
